import Mathlib

/-!
Verification of the RBAC authorization core of an IT-asset-management
application.

The embedded functions follow the JavaScript source:
- `src/Backend/src/utils/permissionUtils.js`: the principal permission
  resolver (`hasPermission`, `hasAnyPermission`, `hasAllPermissions`), the
  scope-access evaluator (`checkScopeAccess`) and the scope helpers
  (`getUserAccessibleEnterprises`).
- the authorization middleware (`checkPermission`, `checkAllPermissions`,
  `checkScopePermission`), modelled as pure functions from a request to a
  decision (`next()` on success becomes `AuthResult.granted`; an early
  `res.status(c).json(msg)` becomes `AuthResult.denied c msg`).
- `src/Backend/src/seed/rbac.seed.js`: the permission catalog, the built-in
  roles, and the seeding functions (the Mongo store is modelled as a list of
  rows; `Model.findOne` is an existence check on the matching field and
  `Model.create` appends a row).

JavaScript-value modelling conventions, used consistently below:
- identifiers (ObjectIds) are strings; `id.toString()` is the identity on
  them, and `Array.prototype.toString` on a list of them joins with ",".
- an argument that the source guards with `Array.isArray` is modelled by
  `JsArg`: every JS value is either an array of strings or some non-array
  value (null, undefined, or any other value - the source returns the same
  result for all of these, so they are collapsed into one constructor).
- a field accessed with optional chaining or a truthiness test is modelled
  as an `Option`; `none` stands for null/undefined/absent.
- `user.organizationId` may hold a single id, an array of ids, or nothing,
  so it gets its own three-constructor type `OrgIdVal`.
-/

namespace RBAC

/-- A JavaScript value passed where an array of permission strings is
expected: either an actual array, or any non-array value (null, undefined,
a number, a plain object, ...).  The source rejects every non-array value
with the same `if (!userPermissions || !Array.isArray(userPermissions))`
guard (falsy values fail the first test, truthy non-arrays fail the
second), so one constructor covers them all; a JS array is always truthy,
so an array always reaches the body. -/
inductive JsArg where
  | nonArray : JsArg
  | arr : List String → JsArg
deriving DecidableEq, Repr

/-- Embeds `hasPermission(userPermissions, requiredPermission)` from
`permissionUtils.js`: reject non-arrays, grant on the wildcard `*`, then
exact membership. -/
def hasPermission (userPermissions : JsArg) (requiredPermission : String) : Bool :=
  match userPermissions with
  | .nonArray => false
  | .arr l =>
    if l.contains "*" then true
    else l.contains requiredPermission

/-- Embeds `hasAnyPermission(userPermissions, requiredPermissions)` from
`permissionUtils.js`: reject non-arrays, grant on the wildcard, then
`requiredPermissions.some(perm => userPermissions.includes(perm))`. -/
def hasAnyPermission (userPermissions : JsArg) (requiredPermissions : List String) : Bool :=
  match userPermissions with
  | .nonArray => false
  | .arr l =>
    if l.contains "*" then true
    else requiredPermissions.any (fun perm => l.contains perm)

/-- Embeds `hasAllPermissions(userPermissions, requiredPermissions)` from
`permissionUtils.js`: reject non-arrays, grant on the wildcard, then
`requiredPermissions.every(perm => userPermissions.includes(perm))`. -/
def hasAllPermissions (userPermissions : JsArg) (requiredPermissions : List String) : Bool :=
  match userPermissions with
  | .nonArray => false
  | .arr l =>
    if l.contains "*" then true
    else requiredPermissions.all (fun perm => l.contains perm)

/-- The value of `user.organizationId`: absent (null/undefined), a single
identifier, or an array of identifiers.  The source probes it with
`Array.isArray` first and a truthiness test second. -/
inductive OrgIdVal where
  | absent : OrgIdVal
  | single : String → OrgIdVal
  | array : List String → OrgIdVal
deriving DecidableEq, Repr

/-- A user/principal record, with exactly the fields the authorization core
reads: `permissions` (may be absent, probed with optional chaining or
`|| []`), `organizationId` (the assigned-enterprises value) and `branchId`
(the assigned-branches array; the schema declares it an array, and the
source defaults a missing one to `[]` via `user.branchId || []`). -/
structure User where
  permissions : Option (List String)
  organizationId : OrgIdVal
  branchId : List String
deriving DecidableEq, Repr

/-- Embeds `Array.prototype.toString` on a list of identifiers: JavaScript
joins the elements with ",". -/
def jsArrayToString (l : List String) : String :=
  String.intercalate "," l

/-- Embeds the `userEnterpriseIds` computation inside `checkScopeAccess`:
`Array.isArray(user.organizationId) ? [user.organizationId.toString()] :
user.organizationId ? [user.organizationId.toString()] : []`.
Note both non-empty branches wrap a single `.toString()` in a one-element
array, so an array of ids is collapsed into one comma-joined string. -/
def userEnterpriseIds (orgId : OrgIdVal) : List String :=
  match orgId with
  | .array l => [jsArrayToString l]
  | .single s => [s]
  | .absent => []

/-- Embeds `checkScopeAccess(user, resourceBranchId, resourceEnterpriseId)`
from `permissionUtils.js`: null user denies; wildcard permission grants
unconditionally; then the enterprise dimension (deny when the user has a
non-empty enterprise-id list not containing the resource enterprise), then
the branch dimension (deny when the user has a non-empty branch-id list not
containing the resource branch); otherwise grant.  A resource id that is
absent (modelled `none`) skips its dimension. -/
def checkScopeAccess (user : Option User)
    (resourceBranchId resourceEnterpriseId : Option String) : Bool :=
  match user with
  | Option.none => false
  | Option.some u =>
    if (u.permissions.getD []).contains "*" then true
    else
      let entOk : Bool :=
        match resourceEnterpriseId with
        | Option.some rid =>
          let ids := userEnterpriseIds u.organizationId
          if ids.length > 0 then ids.contains rid else true
        | Option.none => true
      if !entOk then false
      else
        match resourceBranchId with
        | Option.some rid =>
          let ids := u.branchId
          if ids.length > 0 then ids.contains rid else true
        | Option.none => true

/-- Embeds `getUserAccessibleEnterprises(user)` from `permissionUtils.js`:
null user gives `[]`, wildcard gives the sentinel `["*"]`, otherwise the
organizationId value normalized to an array with each id stringified
individually (contrast with `userEnterpriseIds` above). -/
def getUserAccessibleEnterprises (user : Option User) : List String :=
  match user with
  | Option.none => []
  | Option.some u =>
    if (u.permissions.getD []).contains "*" then ["*"]
    else
      match u.organizationId with
      | .array l => l
      | .single s => [s]
      | .absent => []

/-- An HTTP request as the authorization middleware sees it: the
authenticated principal (absent when unauthenticated) and the three field
maps the scoped middleware probes for resource-scope identifiers.  Field
values are modelled as present-and-truthy or absent. -/
structure Request where
  user : Option User
  body : List (String × String)
  params : List (String × String)
  query : List (String × String)
deriving DecidableEq, Repr

/-- Embeds `req.body?.[field] || req.params?.[field] || req.query?.[field]`:
first match among body, params, query. -/
def getField (req : Request) (field : String) : Option String :=
  match req.body.lookup field with
  | Option.some v => Option.some v
  | Option.none =>
    match req.params.lookup field with
    | Option.some v => Option.some v
    | Option.none => req.query.lookup field

/-- Outcome of one middleware evaluation: `granted` models the call to
`next()` (after attaching `req.checkedPermission`), `denied c msg` models
the early `res.status(c).json(\x7b ... message: msg \x7d)` return. -/
inductive AuthResult where
  | granted : AuthResult
  | denied : Nat → String → AuthResult
deriving DecidableEq, Repr

/-- A single-quote character, written by code point to build the exact
denial message strings of the source. -/
def singleQuote : String := String.singleton (Char.ofNat 39)

/-- The 401 message `Authentication required`. -/
def authRequiredMsg : String := "Authentication required"

/-- The single-permission 403 message: `Permission statement` of the form
Permission 'key' required. -/
def permRequiredMsg (key : String) : String :=
  "Permission " ++ singleQuote ++ key ++ singleQuote ++ " required"

/-- The any-of 403 message of `checkPermission` on an array argument:
`Insufficient permissions. Required: k1 | k2 | ...`. -/
def insufficientAnyMsg (keys : List String) : String :=
  "Insufficient permissions. Required: " ++ String.intercalate " | " keys

/-- The all-of 403 message of `checkAllPermissions`:
`Insufficient permissions. Required all of: k1, k2, ...`. -/
def insufficientAllMsg (keys : List String) : String :=
  "Insufficient permissions. Required all of: " ++ String.intercalate ", " keys

/-- The scope-denial 403 message of `checkScopePermission`. -/
def scopeDeniedMsg : String := "Access to this resource scope is not allowed"

/-- The `requiredPermissions` argument of the `checkPermission` middleware
factory: the source accepts a single key or an array of keys. -/
inductive PermSpec where
  | one : String → PermSpec
  | anyOf : List String → PermSpec
deriving DecidableEq, Repr

/-- Embeds the `checkPermission(requiredPermissions)` middleware: 401
without a principal; an array argument grants when the user holds ANY of
the keys, a single argument requires that key; denial messages as in the
source. -/
def checkPermission (requiredPermissions : PermSpec) (req : Request) : AuthResult :=
  match req.user with
  | Option.none => .denied 401 authRequiredMsg
  | Option.some u =>
    let userPermissions := JsArg.arr (u.permissions.getD [])
    match requiredPermissions with
    | .anyOf keys =>
      if keys.any (fun perm => hasPermission userPermissions perm) then .granted
      else .denied 403 (insufficientAnyMsg keys)
    | .one key =>
      if hasPermission userPermissions key then .granted
      else .denied 403 (permRequiredMsg key)

/-- Embeds the `checkAllPermissions(requiredPermissions)` middleware: 401
without a principal; grants when the user holds every key, otherwise a 403
whose message interpolates the full required list. -/
def checkAllPermissions (requiredPermissions : List String) (req : Request) : AuthResult :=
  match req.user with
  | Option.none => .denied 401 authRequiredMsg
  | Option.some u =>
    let userPermissions := JsArg.arr (u.permissions.getD [])
    if requiredPermissions.all (fun perm => hasPermission userPermissions perm) then
      .granted
    else .denied 403 (insufficientAllMsg requiredPermissions)

/-- Embeds the `checkScopePermission(permissionKey, options)` middleware:
401 without a principal; then the permission check (403 with the
single-permission message on failure); then, only when the permission
passed, resource branch/enterprise ids are extracted from
body/params/query under `branchField` and `enterpriseField` (defaults
"branchId" and "organizationId" in the source) and `checkScopeAccess`
decides (403 with the scope message on failure); otherwise granted. -/
def checkScopePermission (permissionKey : String)
    (branchField enterpriseField : String) (req : Request) : AuthResult :=
  match req.user with
  | Option.none => .denied 401 authRequiredMsg
  | Option.some u =>
    let userPermissions := JsArg.arr (u.permissions.getD [])
    if !(hasPermission userPermissions permissionKey) then
      .denied 403 (permRequiredMsg permissionKey)
    else
      let resourceBranchId := getField req branchField
      let resourceEnterpriseId := getField req enterpriseField
      if !(checkScopeAccess (Option.some u) resourceBranchId resourceEnterpriseId) then
        .denied 403 scopeDeniedMsg
      else .granted

/-- Scenario input: a principal holding only `report:view`, assigned to the
two enterprises E1 and E2, no branch restriction. -/
def multiEnterpriseUser : User :=
  { permissions := Option.some ["report:view"]
    organizationId := OrgIdVal.array ["E1", "E2"]
    branchId := [] }

/-- Scenario input (spec scenario C): a request by a principal whose
permission set is exactly the singleton report:export. -/
def exportOnlyRequest : Request :=
  { user := Option.some
      { permissions := Option.some ["report:export"]
        organizationId := OrgIdVal.absent
        branchId := [] }
    body := []
    params := []
    query := [] }

/-- Scenario input (spec scenario B): a request by a wildcard principal with
no assigned branches, targeting a resource in branch B7 (carried in the
request body under the default field name). -/
def wildcardBranchB7Request : Request :=
  { user := Option.some
      { permissions := Option.some ["*"]
        organizationId := OrgIdVal.absent
        branchId := [] }
    body := [("branchId", "B7")]
    params := []
    query := [] }

/-- Scenario input: a principal assigned exactly branch B1, no wildcard. -/
def branchB1User : User :=
  { permissions := Option.some ["asset:read"]
    organizationId := OrgIdVal.absent
    branchId := ["B1"] }

/-- A permission-catalog row as seeded by `rbac.seed.js` (the mongoose
model adds bookkeeping fields the seeding logic never consults). -/
structure PermissionRow where
  key : String
  description : String
  category : String
  isSystemPermission : Bool
deriving DecidableEq, Repr

/-- The full `PERMISSIONS` catalog list from `rbac.seed.js`. -/
def PERMISSIONS : List PermissionRow :=
  [ { key := "user:create", description := "Create new user accounts",
      category := "user_management", isSystemPermission := false }
  , { key := "user:read", description := "View user details and profiles",
      category := "user_management", isSystemPermission := false }
  , { key := "user:update", description := "Update user information (name, email, designation, etc.)",
      category := "user_management", isSystemPermission := false }
  , { key := "user:delete", description := "Delete user accounts",
      category := "user_management", isSystemPermission := true }
  , { key := "user:disable", description := "Disable/enable user accounts",
      category := "user_management", isSystemPermission := true }
  , { key := "user:change_password", description := "Set or reset user passwords",
      category := "user_management", isSystemPermission := true }
  , { key := "user:assign_role", description := "Assign or change user roles",
      category := "user_management", isSystemPermission := true }
  , { key := "user:assign_branch", description := "Assign user to branches",
      category := "user_management", isSystemPermission := false }
  , { key := "user:import", description := "Bulk import users",
      category := "user_management", isSystemPermission := false }
  , { key := "asset:create", description := "Create/add new assets to the system",
      category := "asset_management", isSystemPermission := false }
  , { key := "asset:read", description := "View asset details and lists",
      category := "asset_management", isSystemPermission := false }
  , { key := "asset:update", description := "Update asset information",
      category := "asset_management", isSystemPermission := false }
  , { key := "asset:delete", description := "Delete assets from system",
      category := "asset_management", isSystemPermission := true }
  , { key := "asset:assign", description := "Assign assets to users",
      category := "asset_management", isSystemPermission := false }
  , { key := "asset:transfer", description := "Transfer assets between users/branches",
      category := "asset_management", isSystemPermission := false }
  , { key := "asset:deprecate", description := "Mark assets as deprecated",
      category := "asset_management", isSystemPermission := false }
  , { key := "asset:import", description := "Bulk import assets",
      category := "asset_management", isSystemPermission := false }
  , { key := "report:view", description := "View reports and dashboards",
      category := "reporting", isSystemPermission := false }
  , { key := "report:export", description := "Export reports to CSV/Excel",
      category := "reporting", isSystemPermission := false }
  , { key := "report:generate", description := "Generate custom reports",
      category := "reporting", isSystemPermission := false }
  , { key := "report:schedule", description := "Schedule automated reports",
      category := "reporting", isSystemPermission := false }
  , { key := "organization:create", description := "Create new organizations/enterprises",
      category := "organization", isSystemPermission := true }
  , { key := "organization:read", description := "View organization details",
      category := "organization", isSystemPermission := false }
  , { key := "organization:update", description := "Update organization settings",
      category := "organization", isSystemPermission := true }
  , { key := "organization:delete", description := "Delete organizations",
      category := "organization", isSystemPermission := true }
  , { key := "branch:create", description := "Create new branches",
      category := "branch", isSystemPermission := false }
  , { key := "branch:read", description := "View branch details",
      category := "branch", isSystemPermission := false }
  , { key := "branch:update", description := "Update branch information",
      category := "branch", isSystemPermission := false }
  , { key := "branch:delete", description := "Delete branches",
      category := "branch", isSystemPermission := true }
  , { key := "system:admin", description := "Full system administration access",
      category := "system_admin", isSystemPermission := true }
  , { key := "system:configure", description := "Configure system settings",
      category := "system_admin", isSystemPermission := true }
  , { key := "system:audit", description := "Access system audit logs",
      category := "system_admin", isSystemPermission := true }
  , { key := "audit:view", description := "View audit logs and activity history",
      category := "audit", isSystemPermission := false }
  , { key := "audit:export", description := "Export audit logs",
      category := "audit", isSystemPermission := false } ]

/-- A role row as seeded by `rbac.seed.js`. -/
structure RoleRow where
  name : String
  displayName : String
  description : String
  category : String
  priority : Nat
  permissions : List String
  isActive : Bool
  isProtected : Bool
  canManageMultipleBranches : Bool
  canManageMultipleEnterprises : Bool
deriving DecidableEq, Repr

/-- The `BUILT_IN_ROLES` list from `rbac.seed.js`. -/
def BUILT_IN_ROLES : List RoleRow :=
  [ { name := "super_admin", displayName := "Super Administrator"
      description := "Full system access - can manage everything"
      category := "system", priority := 1, permissions := ["*"]
      isActive := true, isProtected := true
      canManageMultipleBranches := true, canManageMultipleEnterprises := true }
  , { name := "enterprise_admin", displayName := "Enterprise Administrator"
      description := "Can manage assigned enterprises and their branches"
      category := "system", priority := 2
      permissions :=
        [ "user:create", "user:read", "user:update", "user:disable"
        , "user:assign_role", "user:assign_branch"
        , "asset:create", "asset:read", "asset:update", "asset:assign", "asset:transfer"
        , "branch:read", "branch:create", "branch:update"
        , "report:view", "report:export", "audit:view" ]
      isActive := true, isProtected := true
      canManageMultipleBranches := true, canManageMultipleEnterprises := false }
  , { name := "branch_admin", displayName := "Branch Administrator"
      description := "Can manage assigned branch(es) and users within those branch(es)"
      category := "system", priority := 3
      permissions :=
        [ "user:create", "user:read", "user:update", "user:disable"
        , "asset:create", "asset:read", "asset:update", "asset:assign", "asset:transfer"
        , "report:view", "report:export", "audit:view" ]
      isActive := true, isProtected := true
      canManageMultipleBranches := true, canManageMultipleEnterprises := false }
  , { name := "user", displayName := "Regular User"
      description := "Can view assets and update own profile"
      category := "system", priority := 100
      permissions := ["asset:read", "user:read", "report:view"]
      isActive := true, isProtected := true
      canManageMultipleBranches := false, canManageMultipleEnterprises := false } ]

/-- One iteration of the seeding loop over a store, generic in the
field used for the existence check: `findOne` on the field is modelled by
`List.any`, and `create` appends the row unchanged. -/
def seedStep {α : Type} (keyOf : α → String) (acc : List α) (p : α) : List α :=
  if acc.any (fun r => keyOf r == keyOf p) then acc else acc ++ [p]

/-- The seeding loop over a catalog list, generic in the lookup field. -/
def seedList {α : Type} (keyOf : α → String) (cat : List α) (store : List α) : List α :=
  cat.foldl (seedStep keyOf) store

/-- Embeds `seedPermissions()`: for each catalog entry, insert it into the
permission store unless a row with the same key already exists. -/
def seedPermissions (store : List PermissionRow) : List PermissionRow :=
  PERMISSIONS.foldl
    (fun acc p => if acc.any (fun r => r.key == p.key) then acc else acc ++ [p]) store

/-- Embeds `seedRoles()`: for each built-in role, insert it into the role
store unless a row with the same name already exists. -/
def seedRoles (store : List RoleRow) : List RoleRow :=
  BUILT_IN_ROLES.foldl
    (fun acc r0 => if acc.any (fun r => r.name == r0.name) then acc else acc ++ [r0]) store

/-- The persistent store the seed entrypoint touches: the permission
catalog collection and the role collection. -/
structure Store where
  perms : List PermissionRow
  roles : List RoleRow
deriving DecidableEq, Repr

/-- Embeds `seedRBAC()` (the seed entrypoint): `seedPermissions` followed by
`seedRoles`; the two loops touch disjoint collections. -/
def seedRBAC (s : Store) : Store :=
  { perms := seedPermissions s.perms, roles := seedRoles s.roles }

end RBAC

namespace RBAC

/-- C1: for every permission array P and key k, `hasPermission` returns true
exactly when P contains the wildcard or P contains k; consequently a
wildcard set grants every key and a non-wildcard set decides by plain
membership. -/
theorem hasPermission_iff_wildcard_or_mem (P : List String) (k : String) :
    hasPermission (JsArg.arr P) k = (P.contains "*" || P.contains k) := by
  show (if P.contains "*" then true else P.contains k) = _
  cases h : P.contains "*" <;> simp [h]

/-- C3 counterexample: the claim says `hasAny(P, [])` is false for every P
including a wildcard P, but on the permission array `["*"]` with the empty
key list the source returns true, because the wildcard short-circuit runs
before the key list is consulted. -/
theorem hasAnyPermission_wildcard_empty_true :
    hasAnyPermission (JsArg.arr ["*"]) [] = true := by decide

/-- C3 amended: `hasAnyPermission` on an array P returns true exactly when P
contains the wildcard or some key of the list is a member of P; hence on the
empty key list it returns false precisely when P lacks the wildcard, and
returns true when P contains the wildcard. -/
theorem hasAnyPermission_eq_wildcard_or_any (P : List String) (keys : List String) :
    hasAnyPermission (JsArg.arr P) keys
      = (P.contains "*" || keys.any (fun k => P.contains k)) := by
  show (if P.contains "*" then true else keys.any (fun perm => P.contains perm)) = _
  cases h : P.contains "*" <;> simp [h]

/-- C8: `hasAllPermissions` on an array P returns true exactly when
`hasPermission` holds for every listed key; in particular the empty key
list yields true for every P (vacuous truth). -/
theorem hasAllPermissions_eq_all_hasPermission (P : List String) (keys : List String) :
    hasAllPermissions (JsArg.arr P) keys
      = keys.all (fun k => hasPermission (JsArg.arr P) k)
    ∧ hasAllPermissions (JsArg.arr P) [] = true := by
  constructor
  · show (if P.contains "*" then true else keys.all (fun perm => P.contains perm)) = _
    cases h : P.contains "*" <;> simp at h <;> simp [hasPermission, h]
  · show (if P.contains "*" then true else List.all [] (fun perm => P.contains perm)) = true
    cases h : P.contains "*" <;> simp [h]

/-- C10: each of the three resolver functions is total and returns false,
for every required key or key list, when the user-permission argument is
not an array (null, undefined, or any other non-array value). -/
theorem resolver_fail_closed_on_nonArray (k : String) (keys : List String) :
    hasPermission JsArg.nonArray k = false
    ∧ hasAnyPermission JsArg.nonArray keys = false
    ∧ hasAllPermissions JsArg.nonArray keys = false := by
  exact ⟨rfl, rfl, rfl⟩

/-- C2: evaluation of the code at the failing input.  The principal is
assigned the two enterprises E1 and E2 (no wildcard), the resource lives in
enterprise E2 - a member of the assigned set, as the membership test and
the source's own `getUserAccessibleEnterprises` helper both confirm - yet
`checkScopeAccess` denies, because its enterprise branch collapses the
array of assigned ids into the single comma-joined string "E1,E2" and
compares the resource id against that. -/
theorem checkScopeAccess_denies_assigned_enterprise_member :
    ["E1", "E2"].contains "E2" = true
    ∧ getUserAccessibleEnterprises (Option.some multiEnterpriseUser) = ["E1", "E2"]
    ∧ userEnterpriseIds multiEnterpriseUser.organizationId = ["E1,E2"]
    ∧ checkScopeAccess (Option.some multiEnterpriseUser) Option.none (Option.some "E2")
        = false := by
  decide

/-- C4 counterexample: on spec scenario C, the all-of denial produced by
`checkAllPermissions` interpolates the full required list
report:export, audit:export into its diagnostics, so the result is not the
denial whose required keys are only the missing audit:export, and the two
diagnostic messages differ. -/
theorem checkAllPermissions_denial_lists_all_keys :
    checkAllPermissions ["report:export", "audit:export"] exportOnlyRequest
      = AuthResult.denied 403 (insufficientAllMsg ["report:export", "audit:export"])
    ∧ checkAllPermissions ["report:export", "audit:export"] exportOnlyRequest
      ≠ AuthResult.denied 403 (insufficientAllMsg ["audit:export"])
    ∧ insufficientAllMsg ["report:export", "audit:export"]
      ≠ insufficientAllMsg ["audit:export"] := by
  decide

/-- C4 amended: a principal with permission set report:export only is
granted by the any-of policy over report:export, audit:export, and denied
403 (insufficient permission) by the all-of policy over the same keys, with
the full required list report:export, audit:export - not only the missing
key - in the denial diagnostics. -/
theorem scenarioC_anyOf_granted_allOf_denied :
    checkPermission (PermSpec.anyOf ["report:export", "audit:export"]) exportOnlyRequest
      = AuthResult.granted
    ∧ checkAllPermissions ["report:export", "audit:export"] exportOnlyRequest
      = AuthResult.denied 403 (insufficientAllMsg ["report:export", "audit:export"]) := by
  decide

/-- C5: a principal whose permission set contains the wildcard passes
`checkScopeAccess` unconditionally, for every resource branch and
enterprise; and spec scenario B - a wildcard principal with no assigned
branches evaluated by `checkScopePermission` for asset:delete on a resource
in branch B7 - is granted. -/
theorem wildcard_scope_unconditional :
    (∀ (u : User) (b e : Option String),
      (u.permissions.getD []).contains "*" = true →
      checkScopeAccess (Option.some u) b e = true)
    ∧ checkScopePermission "asset:delete" "branchId" "organizationId"
        wildcardBranchB7Request = AuthResult.granted := by
  constructor
  · intro u b e h
    simp at h
    simp [checkScopeAccess, h]
  · decide

/-- C5 witness: the wildcard clause of `wildcard_scope_unconditional`
applied to the scenario-B principal and resource branch B7. -/
theorem wildcard_scope_unconditional_witness :
    checkScopeAccess
      (Option.some (User.mk (Option.some ["*"]) OrgIdVal.absent []))
      (Option.some "B7") Option.none = true :=
  wildcard_scope_unconditional.1
    (User.mk (Option.some ["*"]) OrgIdVal.absent [])
    (Option.some "B7") Option.none (by decide)

/-- C6: for a principal without the wildcard and a resource that specifies
a branch (and no enterprise), the scope evaluator grants exactly when the
principal's assigned-branch list is empty (permissive default) or contains
the resource branch; concretely, the principal assigned only B1 is granted
for a B1 resource and denied for a B2 resource. -/
theorem branch_dimension_permissive_default (u : User) (b : String)
    (h : (u.permissions.getD []).contains "*" = false) :
    checkScopeAccess (Option.some u) (Option.some b) Option.none
      = (u.branchId.isEmpty || u.branchId.contains b)
    ∧ checkScopeAccess (Option.some branchB1User) (Option.some "B1") Option.none = true
    ∧ checkScopeAccess (Option.some branchB1User) (Option.some "B2") Option.none = false := by
  refine ⟨?_, by decide, by decide⟩
  simp only [checkScopeAccess, h]
  cases hb : u.branchId <;> simp [hb]

/-- C6 witness: `branch_dimension_permissive_default` applied to the
principal assigned only branch B1 and a resource in branch B1. -/
theorem branch_dimension_permissive_default_witness :
    checkScopeAccess (Option.some branchB1User) (Option.some "B1") Option.none
      = (branchB1User.branchId.isEmpty || branchB1User.branchId.contains "B1") :=
  (branch_dimension_permissive_default branchB1User "B1" (by decide)).1

/-- Helper: the single-permission denial message always differs from the
scope denial message (their first characters differ). -/
theorem permRequiredMsg_ne_scopeDeniedMsg (key : String) :
    permRequiredMsg key ≠ scopeDeniedMsg := by
  intro h
  have h2 := congrArg String.data h
  simp [permRequiredMsg, scopeDeniedMsg, singleQuote, String.data_append] at h2

/-- C7: for an authenticated principal, `checkScopePermission` decides the
permission first - when it fails, the outcome is the 403 insufficient
permission denial regardless of scope - and consults `checkScopeAccess`
only when the permission passed, in which case the outcome is granted or
the distinct 403 scope denial; the two denial messages are never equal. -/
theorem checkScopePermission_order_and_distinct_reasons
    (key bf ef : String) (u : User)
    (body params query : List (String × String)) :
    (hasPermission (JsArg.arr (u.permissions.getD [])) key = false →
      checkScopePermission key bf ef (Request.mk (Option.some u) body params query)
        = AuthResult.denied 403 (permRequiredMsg key))
    ∧ (hasPermission (JsArg.arr (u.permissions.getD [])) key = true →
      checkScopePermission key bf ef (Request.mk (Option.some u) body params query)
        = (if checkScopeAccess (Option.some u)
              (getField (Request.mk (Option.some u) body params query) bf)
              (getField (Request.mk (Option.some u) body params query) ef)
            then AuthResult.granted
            else AuthResult.denied 403 scopeDeniedMsg))
    ∧ permRequiredMsg key ≠ scopeDeniedMsg := by
  refine ⟨?_, ?_, permRequiredMsg_ne_scopeDeniedMsg key⟩
  · intro h
    simp [checkScopePermission, h]
  · intro h
    simp only [checkScopePermission, h, Bool.not_true, Bool.false_eq_true, if_false]
    cases hs : checkScopeAccess (Option.some u)
        (getField (Request.mk (Option.some u) body params query) bf)
        (getField (Request.mk (Option.some u) body params query) ef) <;> simp [hs]

/-- C7 witness: the insufficient-permission clause of
`checkScopePermission_order_and_distinct_reasons` at a principal holding
only asset:read and the required key asset:update. -/
theorem checkScopePermission_order_witness :
    checkScopePermission "asset:update" "branchId" "organizationId"
      (Request.mk (Option.some (User.mk (Option.some ["asset:read"]) OrgIdVal.absent []))
        [] [] [])
      = AuthResult.denied 403 (permRequiredMsg "asset:update") :=
  (checkScopePermission_order_and_distinct_reasons "asset:update" "branchId" "organizationId"
    (User.mk (Option.some ["asset:read"]) OrgIdVal.absent []) [] [] []).1 (by decide)

/-- Helper: the seeding loop only ever appends rows, so the original store
is preserved verbatim as a prefix. -/
theorem seedList_append {α : Type} (keyOf : α → String) (cat : List α) :
    ∀ store : List α, ∃ t, seedList keyOf cat store = store ++ t := by
  induction cat with
  | nil => intro store; exact ⟨[], by simp [seedList]⟩
  | cons p cat ih =>
    intro store
    have hstep : seedList keyOf (p :: cat) store
        = seedList keyOf cat (seedStep keyOf store p) := rfl
    obtain ⟨t, ht⟩ := ih (seedStep keyOf store p)
    by_cases h : store.any (fun r => keyOf r == keyOf p) = true
    · exact ⟨t, by rw [hstep, ht]; simp [seedStep, h]⟩
    · exact ⟨[p] ++ t, by rw [hstep, ht]; simp [seedStep, h]⟩

/-- Helper: after seeding, every catalog entry has a row with its key. -/
theorem seedList_key_present {α : Type} (keyOf : α → String) (cat : List α) :
    ∀ (store : List α) (p : α), p ∈ cat →
      (seedList keyOf cat store).any (fun r => keyOf r == keyOf p) = true := by
  induction cat with
  | nil => intro store p hp; simp at hp
  | cons q cat ih =>
    intro store p hp
    have hstep : seedList keyOf (q :: cat) store
        = seedList keyOf cat (seedStep keyOf store q) := rfl
    rcases List.mem_cons.mp hp with heq | hmem
    · subst heq
      have hq : (seedStep keyOf store p).any (fun r => keyOf r == keyOf p) = true := by
        by_cases h : store.any (fun r => keyOf r == keyOf p) = true
        · simp [seedStep, h]
        · simp [seedStep, h, List.any_append]
      obtain ⟨t, ht⟩ := seedList_append keyOf cat (seedStep keyOf store p)
      rw [hstep, ht, List.any_append, hq]
      simp
    · rw [hstep]; exact ih (seedStep keyOf store q) p hmem

/-- Helper: seeding a store that already holds every catalog key is the
identity. -/
theorem seedList_of_all_present {α : Type} (keyOf : α → String) (cat : List α) :
    ∀ store : List α,
      (∀ p ∈ cat, store.any (fun r => keyOf r == keyOf p) = true) →
      seedList keyOf cat store = store := by
  induction cat with
  | nil => intro store _; rfl
  | cons q cat ih =>
    intro store hall
    have hq := hall q (List.mem_cons_self q cat)
    have hstep : seedList keyOf (q :: cat) store
        = seedList keyOf cat (seedStep keyOf store q) := rfl
    rw [hstep]
    have hse : seedStep keyOf store q = store := by simp [seedStep, hq]
    rw [hse]
    exact ih store (fun p hp => hall p (List.mem_cons_of_mem q hp))

/-- Helper: the seeding loop is idempotent. -/
theorem seedList_idem {α : Type} (keyOf : α → String) (cat : List α) (store : List α) :
    seedList keyOf cat (seedList keyOf cat store) = seedList keyOf cat store :=
  seedList_of_all_present keyOf cat (seedList keyOf cat store)
    (fun p hp => seedList_key_present keyOf cat store p hp)

/-- Helper: the seeding loop never introduces a duplicate key. -/
theorem seedList_nodup {α : Type} (keyOf : α → String) (cat : List α) :
    ∀ store : List α, (store.map keyOf).Nodup →
      ((seedList keyOf cat store).map keyOf).Nodup := by
  induction cat with
  | nil => intro store h; exact h
  | cons q cat ih =>
    intro store h
    have hstep : seedList keyOf (q :: cat) store
        = seedList keyOf cat (seedStep keyOf store q) := rfl
    rw [hstep]
    apply ih
    by_cases hq : store.any (fun r => keyOf r == keyOf q) = true
    · simpa [seedStep, hq] using h
    · have hnotmem : keyOf q ∉ store.map keyOf := by
        intro hmem
        obtain ⟨r, hr, hkr⟩ := List.mem_map.mp hmem
        have : store.any (fun r => keyOf r == keyOf q) = true :=
          List.any_eq_true.mpr ⟨r, hr, by simp [hkr]⟩
        exact hq this
      have hmap : (seedStep keyOf store q).map keyOf = store.map keyOf ++ [keyOf q] := by
        simp [seedStep, hq]
      rw [hmap]
      simp [List.nodup_append, h, hnotmem]

/-- Helper: `seedPermissions` is the generic seeding loop keyed on the
permission key. -/
theorem seedPermissions_eq_seedList (store : List PermissionRow) :
    seedPermissions store = seedList (fun r => r.key) PERMISSIONS store := rfl

/-- Helper: `seedRoles` is the generic seeding loop keyed on the role
name. -/
theorem seedRoles_eq_seedList (store : List RoleRow) :
    seedRoles store = seedList (fun r => r.name) BUILT_IN_ROLES store := rfl

/-- C9: for every store state, running the seed entrypoint twice yields the
same catalog and role contents as running it once; seeding only appends,
so every pre-existing row (including manually edited ones) survives
verbatim as a prefix of the result; and when the store starts with no
duplicate permission keys / role names, it ends with none. -/
theorem seedRBAC_idempotent (s : Store) :
    seedRBAC (seedRBAC s) = seedRBAC s
    ∧ (∃ tp, (seedRBAC s).perms = s.perms ++ tp)
    ∧ (∃ tr, (seedRBAC s).roles = s.roles ++ tr)
    ∧ ((s.perms.map (fun r => r.key)).Nodup →
        ((seedRBAC s).perms.map (fun r => r.key)).Nodup)
    ∧ ((s.roles.map (fun r => r.name)).Nodup →
        ((seedRBAC s).roles.map (fun r => r.name)).Nodup) := by
  refine ⟨?_, ?_, ?_, ?_, ?_⟩
  · have hp : seedPermissions (seedPermissions s.perms) = seedPermissions s.perms := by
      simp only [seedPermissions_eq_seedList]
      exact seedList_idem _ _ _
    have hr : seedRoles (seedRoles s.roles) = seedRoles s.roles := by
      simp only [seedRoles_eq_seedList]
      exact seedList_idem _ _ _
    simp [seedRBAC, hp, hr]
  · obtain ⟨t, ht⟩ := seedList_append (fun r : PermissionRow => r.key) PERMISSIONS s.perms
    exact ⟨t, by simpa [seedRBAC, seedPermissions_eq_seedList] using ht⟩
  · obtain ⟨t, ht⟩ := seedList_append (fun r : RoleRow => r.name) BUILT_IN_ROLES s.roles
    exact ⟨t, by simpa [seedRBAC, seedRoles_eq_seedList] using ht⟩
  · intro h
    simpa [seedRBAC, seedPermissions_eq_seedList] using
      seedList_nodup (fun r : PermissionRow => r.key) PERMISSIONS s.perms h
  · intro h
    simpa [seedRBAC, seedRoles_eq_seedList] using
      seedList_nodup (fun r : RoleRow => r.name) BUILT_IN_ROLES s.roles h

/-- C9 witness: `seedRBAC_idempotent` at the empty store, with the no-dup
hypotheses discharged there. -/
theorem seedRBAC_idempotent_witness :
    seedRBAC (seedRBAC (Store.mk [] [])) = seedRBAC (Store.mk [] [])
    ∧ (((seedRBAC (Store.mk [] [])).perms.map (fun r => r.key)).Nodup)
    ∧ (((seedRBAC (Store.mk [] [])).roles.map (fun r => r.name)).Nodup) :=
  ⟨(seedRBAC_idempotent (Store.mk [] [])).1,
   (seedRBAC_idempotent (Store.mk [] [])).2.2.2.1 (by simp),
   (seedRBAC_idempotent (Store.mk [] [])).2.2.2.2 (by simp)⟩

end RBAC
